import Mathlib

/-!
Shallow embedding of `github_stats.py` (sarahsturgeon/github-stats).

Conventions used throughout:
* Python `dict.get(k, d)` on a possibly-absent key is modelled with `Option`
  (`none` = key absent) and `Option.getD`; when JSON `null` must be
  distinguished from an absent key (Python `.get` returns `None` for a key
  mapped to `null`, not the default), a nested `Option` is used.
* Python floats appear only as `time.time()` values and the language
  proportions; both are modelled over `ℚ`, which has the ordered-field
  operations the code uses.  Python division, which raises
  `ZeroDivisionError` on a zero divisor, is modelled by `pydiv` returning
  `Option ℚ`.
* The filesystem seen by `SimpleCache` is a pair of a directory list and a
  file association list.  The SHA-256 hex digest used to build a filename is
  modelled by the identity encoding of the key (the digest is injective for
  the model's purposes; collisions are outside the model).
* `asyncio` concurrency is not modelled; the fan-out in `lines_changed` /
  `views` is modelled by a list of per-repository task outcomes
  (`Except` = task raised / task returned), which is all the aggregation
  code observes.
-/

/-! ## SimpleCache (github_stats.py lines 18-84) -/

/-- A well-formed cache file body: `{"timestamp": ..., "value": ...}`. -/
structure CacheEntry (V : Type) where
  timestamp : ℚ
  value : V
deriving DecidableEq

/-- Content of a file in the cache directory: either a well-formed JSON body
(files written by `SimpleCache.set` always carry both keys) or a corrupt /
unreadable file, which `get` treats as absent and deletes. -/
inductive CacheFile (V : Type) where
  | valid (e : CacheEntry V)
  | corrupt
deriving DecidableEq

/-- The fragment of the filesystem the cache touches: the set of existing
directories and the files, as an association list from path to content. -/
structure FS (V : Type) where
  dirs : List String
  files : List (String × CacheFile V)
deriving DecidableEq

def FS.lookupFile {V : Type} (fs : FS V) (path : String) : Option (CacheFile V) :=
  (fs.files.find? (fun kv => kv.1 = path)).map (·.2)

def FS.eraseFile {V : Type} (fs : FS V) (path : String) : FS V :=
  { fs with files := fs.files.filter (fun kv => kv.1 ≠ path) }

def FS.writeFile {V : Type} (fs : FS V) (path : String) (c : CacheFile V) : FS V :=
  { fs with files := (path, c) :: (fs.files.filter (fun kv => kv.1 ≠ path)) }

/-- The `SimpleCache` object: `cache_dir` and `ttl` (an `int` in the source,
default 3600). -/
structure SimpleCache where
  cache_dir : String
  ttl : Int
deriving DecidableEq

/-- `_ensure_cache_dir` (lines 32-35): create the cache directory if it does
not exist. -/
def SimpleCache.ensureCacheDir {V : Type} (c : SimpleCache) (fs : FS V) : FS V :=
  if c.cache_dir ∈ fs.dirs then fs else { fs with dirs := c.cache_dir :: fs.dirs }

/-- `__init__` (lines 23-30): store `cache_dir` and `ttl`, then call
`_ensure_cache_dir()` — the directory is created during construction. -/
def SimpleCache.make {V : Type} (cache_dir : String) (ttl : Int) (fs : FS V) :
    SimpleCache × FS V :=
  let c : SimpleCache := ⟨cache_dir, ttl⟩
  (c, c.ensureCacheDir fs)

/-- `_get_cache_path` (lines 37-41): `cache_dir/<sha256(key)>.json`; the hex
digest is modelled by the key itself (an injective encoding). -/
def cachePath (c : SimpleCache) (key : String) : String :=
  c.cache_dir ++ "/" ++ key ++ ".json"

/-- `SimpleCache.get` (lines 43-67).  Returns the cached value (or `none`)
together with the filesystem after the read: a missing file is a miss; a
corrupt file is deleted and a miss; an entry older than `ttl` is deleted and
a miss; otherwise the stored value is returned. -/
def SimpleCache.get {V : Type} (c : SimpleCache) (now : ℚ) (fs : FS V)
    (key : String) : Option V × FS V :=
  let path := cachePath c key
  match fs.lookupFile path with
  | none => (none, fs)
  | some CacheFile.corrupt => (none, fs.eraseFile path)
  | some (CacheFile.valid e) =>
      if now - e.timestamp > (c.ttl : ℚ) then (none, fs.eraseFile path)
      else (some e.value, fs)

/-- `SimpleCache.set` (lines 69-84): write `{"timestamp": now, "value": v}`
to the cache path.  Opening the file for writing fails with `IOError` when
the cache directory does not exist; the exception is swallowed, so the
filesystem is unchanged in that case. -/
def SimpleCache.set {V : Type} (c : SimpleCache) (now : ℚ) (fs : FS V)
    (key : String) (v : V) : FS V :=
  if c.cache_dir ∈ fs.dirs then
    fs.writeFile (cachePath c key) (CacheFile.valid ⟨now, v⟩)
  else fs

/-! ## Queries.query_rest (github_stats.py lines 134-172) -/

/-- Outcome of one REST round trip, as observed by `query_rest`'s loop body:
an HTTP 202, a successful response whose parsed JSON body is `none`
(Python `None`) or a value, or a raised exception. -/
inductive RestResp where
  | accepted
  | ok (body : Option String)
  | exn
deriving DecidableEq

/-- What `query_rest` returns: a parsed JSON body, or the `dict()` fallback. -/
inductive RestResult where
  | value (v : String)
  | emptyDict
deriving DecidableEq

/-- Observable trace of one `query_rest` call: the returned value, the number
of attempts made, and the list of backoff sleeps (in seconds) performed. -/
structure RestRun where
  result : RestResult
  attempts : Nat
  sleeps : List Nat
deriving DecidableEq

/-- The `for _ in range(60)` loop of `query_rest` (lines 142-172), with the
remaining budget explicit.  On 202: sleep 2 and retry.  On a `None` body:
fall through and retry without sleeping.  On a value: return it.  On an
exception: return `dict()`.  Budget exhausted: return `dict()`. -/
def queryRestAux (responses : Nat → RestResp) :
    Nat → Nat → List Nat → RestRun
  | 0, attempts, sleeps => ⟨RestResult.emptyDict, attempts, sleeps⟩
  | Nat.succ budget, attempts, sleeps =>
    match responses attempts with
    | RestResp.accepted => queryRestAux responses budget (attempts + 1) (sleeps ++ [2])
    | RestResp.ok none => queryRestAux responses budget (attempts + 1) sleeps
    | RestResp.ok (some v) => ⟨RestResult.value v, attempts + 1, sleeps⟩
    | RestResp.exn => ⟨RestResult.emptyDict, attempts + 1, sleeps⟩

/-- `query_rest`: run the loop with its budget of 60 attempts. -/
def query_rest (responses : Nat → RestResp) : RestRun :=
  queryRestAux responses 60 0 []

/-! ## Repository-overview data model (response of `Queries.repos_overview`) -/

/-- One element of `languages.edges`: `size` and `node.name` / `node.color`,
each possibly absent (`lang.get("size", 0)`, `...get("name", "Other")`,
`...get("color")`).  A `name` of `none` covers both a missing `node` object
and a missing `name` key. -/
structure LangEdge where
  size : Option Nat
  name : Option String
  color : Option String
deriving DecidableEq

/-- One repository node.  `nameWithOwner` is `repo.get("nameWithOwner")`
(`none` = Python `None`); stargazer and fork counts have their source-side
defaults of 0 folded in. -/
structure RepoNode where
  nameWithOwner : Option String
  stargazers : Nat
  forkCount : Nat
  languages : List LangEdge
deriving DecidableEq

/-- `pageInfo` of a paginated collection.  `hasNextPage` is read with
`.get("hasNextPage", False)`.  `endCursor` distinguishes an absent key
(outer `none`, where `.get("endCursor", prev)` yields the default) from a
key mapped to JSON `null` (`some none`, where `.get` yields `None`). -/
structure PageInfo where
  hasNextPage : Option Bool
  endCursor : Option (Option String)
deriving DecidableEq

/-- One page of `repositories` or `repositoriesContributedTo`:
`.get("pageInfo", {})` and `.get("nodes", [])`; a node may be `null`. -/
structure RepoPage where
  pageInfo : Option PageInfo
  nodes : List (Option RepoNode)
deriving DecidableEq

/-- The `viewer` object of one overview response.  `name` is
`.get("name", None)` (absent and `null` coincide); `login` distinguishes an
absent key (→ the `"No Name"` default) from `null` (→ Python `None`). -/
structure Overview where
  name : Option String
  login : Option (Option String)
  repositories : Option RepoPage
  repositoriesContributedTo : Option RepoPage
deriving DecidableEq

/-- A raw overview query result: `none` models an empty result object `{}`
(or any result where the `data`/`viewer` chain defaults to `{}`). -/
def Raw : Type := Option Overview

instance : DecidableEq Raw := by
  unfold Raw
  infer_instance

/-- The empty page every `.get(..., {})` chain produces for missing data. -/
def emptyRepoPage : RepoPage := ⟨none, []⟩

def ownedPageOf (raw : Raw) : RepoPage :=
  match raw with
  | none => emptyRepoPage
  | some ov => ov.repositories.getD emptyRepoPage

def contribPageOf (raw : Raw) : RepoPage :=
  match raw with
  | none => emptyRepoPage
  | some ov => ov.repositoriesContributedTo.getD emptyRepoPage

/-- Lines 381-387: `self._name = ...get("name", None)`, falling back to
`...get("login", "No Name")` when that is `None`. -/
def nameFromRaw (raw : Raw) : Option String :=
  match raw with
  | none => some "No Name"
  | some ov =>
    match ov.name with
    | some s => some s
    | none =>
      match ov.login with
      | none => some "No Name"
      | some v => v

/-- `owned_repos.get("pageInfo", {}).get("hasNextPage", False)`. -/
def pageHasNext (p : RepoPage) : Bool :=
  match p.pageInfo with
  | none => false
  | some pi => pi.hasNextPage.getD false

/-- `page.get("pageInfo", {}).get("endCursor", prev)` (lines 430-435): the
previous cursor survives only when the `endCursor` key is absent; a key
mapped to JSON `null` overwrites the cursor with `None`. -/
def stepCursor (p : RepoPage) (prev : Option String) : Option String :=
  match p.pageInfo with
  | none => prev
  | some pi =>
    match pi.endCursor with
    | none => prev
    | some c => c

/-- Lines 427-437: if either page has a next page, produce the next pair of
cursors (owned, contrib); otherwise `none`, meaning the loop breaks. -/
def nextCursors (op cp : RepoPage) (co cc : Option String) :
    Option (Option String × Option String) :=
  if pageHasNext op || pageHasNext cp then
    some (stepCursor op co, stepCursor cp cc)
  else none

/-! ## Stats aggregation state and per-node processing (lines 360-443) -/

/-- Configuration of a `Stats` instance relevant to `get_stats`. -/
structure Cfg where
  excludeRepos : List String
  excludeLangs : List String
  ignoreForkedRepos : Bool
deriving DecidableEq

/-- One value of the `self._languages` dict: `size`, `occurrences`, `color`. -/
structure LangStat where
  size : Nat
  occurrences : Nat
  color : Option String
deriving DecidableEq

/-- The accumulating fields of `get_stats`: stargazers, forks, the languages
dict (an association list in insertion order, as a Python dict iterates),
and the repo set (the list of inserted keys; a key is inserted at most
once, so list membership is exactly set membership). -/
structure StatsAcc where
  stargazers : Nat
  forks : Nat
  languages : List (String × LangStat)
  repos : List (Option String)
deriving DecidableEq

def initAcc : StatsAcc := ⟨0, 0, [], []⟩

/-- `name in self._exclude_repos`: a Python `None` key is never a member of
a set of strings. -/
def inExcludeRepos (cfg : Cfg) (name : Option String) : Bool :=
  match name with
  | none => false
  | some nm => nm ∈ cfg.excludeRepos

/-- `{x.lower() for x in self._exclude_langs}` (line 369). -/
def excludeLangsLower (cfg : Cfg) : List String :=
  cfg.excludeLangs.map (·.toLower)

/-- `name in languages` for the languages dict. -/
def langMem (name : String) (langs : List (String × LangStat)) : Bool :=
  langs.any (fun kv => kv.1 = name)

/-- Lines 418-419: bump `size` and `occurrences` of an existing entry. -/
def updateLang (name : String) (sz : Nat) :
    List (String × LangStat) → List (String × LangStat)
  | [] => []
  | (k, v) :: rest =>
    if k = name then
      (k, { v with size := v.size + sz, occurrences := v.occurrences + 1 }) :: rest
    else (k, v) :: updateLang name sz rest

/-- Lines 412-425: process one `languages.edges` element — resolve the name
(default `"Other"`), skip caller-excluded languages case-insensitively, then
either update the existing entry or append a fresh one. -/
def processLang (cfg : Cfg) (langs : List (String × LangStat)) (e : LangEdge) :
    List (String × LangStat) :=
  let name := e.name.getD "Other"
  if name.toLower ∈ excludeLangsLower cfg then langs
  else
    let sz := e.size.getD 0
    if langMem name langs then updateLang name sz langs
    else langs ++ [(name, ⟨sz, 1, e.color⟩)]

/-- Lines 402-425: process one repository node — skip `null` nodes, skip
nodes whose name is already in the repo set or in the exclusion set,
otherwise record the name and accumulate stars, forks and languages. -/
def processRepo (cfg : Cfg) (acc : StatsAcc) : Option RepoNode → StatsAcc
  | none => acc
  | some r =>
    if r.nameWithOwner ∈ acc.repos ∨ inExcludeRepos cfg r.nameWithOwner then acc
    else
      { stargazers := acc.stargazers + r.stargazers
        forks := acc.forks + r.forkCount
        languages := r.languages.foldl (processLang cfg) acc.languages
        repos := r.nameWithOwner :: acc.repos }

/-- The `for repo in repos:` loop over a list of nodes. -/
def processRepos (cfg : Cfg) (acc : StatsAcc) (rs : List (Option RepoNode)) : StatsAcc :=
  rs.foldl (processRepo cfg) acc

/-- Lines 398-400: the node list of one iteration — owned nodes, then (when
fork-tracking is not disabled) contributed-to nodes. -/
def nodesOf (cfg : Cfg) (raw : Raw) : List (Option RepoNode) :=
  (ownedPageOf raw).nodes ++
    (if cfg.ignoreForkedRepos then [] else (contribPageOf raw).nodes)

/-- The loop-carried state of `get_stats`: `self._name`, the accumulator,
and the two pagination cursors. -/
structure LoopState where
  name : Option String
  acc : StatsAcc
  ownedCursor : Option String
  contribCursor : Option String
deriving DecidableEq

def initLoopState : LoopState := ⟨none, initAcc, none, none⟩

/-- The `while True` pagination loop of `get_stats` (lines 371-437), driven
by the stream of per-iteration responses `pages` and an explicit fuel.
Returns the final state and the number of iterations performed, or `none`
when the fuel runs out before the loop breaks. -/
def runLoop (cfg : Cfg) (pages : Nat → Raw) :
    Nat → Nat → LoopState → Option (LoopState × Nat)
  | 0, _, _ => none
  | Nat.succ fuel, k, s =>
    let raw := pages k
    let op := ownedPageOf raw
    let cp := contribPageOf raw
    let s' : LoopState :=
      { name := nameFromRaw raw
        acc := processRepos cfg s.acc (nodesOf cfg raw)
        ownedCursor := s.ownedCursor
        contribCursor := s.contribCursor }
    match nextCursors op cp s.ownedCursor s.contribCursor with
    | some (co, cc) =>
        runLoop cfg pages fuel (k + 1)
          { s' with ownedCursor := co, contribCursor := cc }
    | none => some (s', k + 1)

/-- Python division: raises `ZeroDivisionError` on a zero divisor. -/
def pydiv (a b : ℚ) : Option ℚ :=
  if b = 0 then none else some (a / b)

/-- `sum([v.get("size", 0) for v in self._languages.values()])` (line 441). -/
def langsTotal (langs : List (String × LangStat)) : Nat :=
  (langs.map (fun kv => kv.2.size)).sum

/-- The `for k, v in self._languages.items(): v["prop"] = 100 * (size /
langs_total)` loop (lines 442-443), with the divisor `T` passed in; `none`
models the loop raising `ZeroDivisionError`. -/
def computeProps (T : ℚ) : List (String × LangStat) → Option (List (String × ℚ))
  | [] => some []
  | kv :: rest =>
    match pydiv (kv.2.size : ℚ) T, computeProps T rest with
    | some q, some ps => some ((kv.1, 100 * q) :: ps)
    | _, _ => none

/-- The observable outcome of a completed `get_stats`: the loop state plus
the `prop` fields, which is what `languages_proportional` later returns. -/
structure FinalStats where
  state : LoopState
  props : List (String × ℚ)
deriving DecidableEq

/-- `get_stats` (lines 360-443): run the pagination loop, then compute the
language proportions; `none` models a raised exception (or exhausted fuel). -/
def getStats (cfg : Cfg) (pages : Nat → Raw) (fuel : Nat) :
    Option (FinalStats × Nat) :=
  match runLoop cfg pages fuel 0 initLoopState with
  | none => none
  | some (s, n) =>
    match computeProps ((langsTotal s.acc.languages : ℚ)) s.acc.languages with
    | none => none
    | some ps => some (⟨s, ps⟩, n)


/-! ## lines_changed and views (github_stats.py lines 552-673) -/

/-- One element of an author's `weeks` list: `week.get("a", 0)` and
`week.get("d", 0)`. -/
structure Week where
  a : Option Nat
  d : Option Nat
deriving DecidableEq

/-- The value of an entry's `author` key when the key is present: either not
a JSON object (the `isinstance(..., dict)` check fails, e.g. `null`) or an
object with an optional `login`. -/
inductive AuthorField where
  | notDict
  | obj (login : Option String)
deriving DecidableEq

/-- One element of the contributor-stats payload iterated at line 584:
either not a JSON object at all, or an object with an optional `author`
field and an optional `weeks` list. -/
inductive ContribEntry where
  | notDict
  | entry (author : Option AuthorField) (weeks : Option (List Week))
deriving DecidableEq

/-- Lines 586-590: the login `fetch_repo_stats` compares against the
username, or `none` when the entry is skipped by the `isinstance` checks.
An absent `author` key defaults to `{}` (an object), whose missing `login`
defaults to `""`. -/
def entryLogin : Option AuthorField → Option String
  | none => some ""
  | some AuthorField.notDict => none
  | some (AuthorField.obj login) => some (login.getD "")

/-- Lines 594-596: sum one week's additions and deletions into the pair. -/
def weekAdd (acc : Nat × Nat) (w : Week) : Nat × Nat :=
  (acc.1 + w.a.getD 0, acc.2 + w.d.getD 0)

/-- The body of `fetch_repo_stats` (lines 575-597) applied to one payload
entry: skip malformed entries and entries whose author is not `username`;
otherwise accumulate the weekly additions/deletions. -/
def entryStats (username : String) (acc : Nat × Nat) : ContribEntry → Nat × Nat
  | ContribEntry.notDict => acc
  | ContribEntry.entry author weeks =>
    match entryLogin author with
    | none => acc
    | some login =>
      if login = username then (weeks.getD []).foldl weekAdd acc
      else acc

/-- `fetch_repo_stats` for one repository's payload. -/
def fetchRepoStats (username : String) (payload : List ContribEntry) : Nat × Nat :=
  payload.foldl (entryStats username) (0, 0)

/-- The summation loop of lines 603-610 with the running totals explicit:
an exception is skipped, a successful task has its pair added in. -/
def linesFold (username : String) (acc : Nat × Nat) :
    List (Except String (List ContribEntry)) → Nat × Nat
  | [] => acc
  | Except.error _ :: rs => linesFold username acc rs
  | Except.ok payload :: rs =>
    linesFold username
      (acc.1 + (fetchRepoStats username payload).1,
       acc.2 + (fetchRepoStats username payload).2) rs

/-- Lines 599-612: `asyncio.gather(..., return_exceptions=True)` followed by
the summation loop that skips exceptions.  Each task outcome is either the
exception it raised or its repository's payload. -/
def lines_changed (username : String)
    (results : List (Except String (List ContribEntry))) : Nat × Nat :=
  linesFold username (0, 0) results

/-- `fetch_repo_views` (lines 644-654): sum `view.get("count", 0)` over
`r.get("views", [])`; the payload is the optional `views` list, each of
whose elements carries an optional `count`. -/
def fetchRepoViews (payload : Option (List (Option Nat))) : Nat :=
  (payload.getD []).foldl (fun c v => c + v.getD 0) 0

/-- The summation loop of lines 660-665 with the running total explicit. -/
def viewsFold (total : Nat) :
    List (Except String (Option (List (Option Nat)))) → Nat
  | [] => total
  | Except.error _ :: rs => viewsFold total rs
  | Except.ok payload :: rs => viewsFold (total + fetchRepoViews payload) rs

/-- Lines 656-667: the views fan-out and the summation loop that skips
exceptions. -/
def viewsAgg (results : List (Except String (Option (List (Option Nat))))) : Nat :=
  viewsFold 0 results

/-! ## Specification-side definitions used by the theorem statements -/

/-- First-occurrence filter over a node list: drop `null` nodes and nodes
whose name is already seen or excluded, keeping exactly the nodes
`processRepo` actually accumulates.  Used to state that second and later
occurrences of a `full_name` contribute nothing. -/
def dedupNodes (cfg : Cfg) (seen : List (Option String)) :
    List (Option RepoNode) → List (Option RepoNode)
  | [] => []
  | none :: rs => dedupNodes cfg seen rs
  | some r :: rs =>
    if r.nameWithOwner ∈ seen ∨ inExcludeRepos cfg r.nameWithOwner then
      dedupNodes cfg seen rs
    else some r :: dedupNodes cfg (r.nameWithOwner :: seen) rs

/-- The concatenation of the node lists of `m` consecutive loop iterations
starting at iteration `k`. -/
def collectFrom (cfg : Cfg) (pages : Nat → Raw) : Nat → Nat → List (Option RepoNode)
  | _, 0 => []
  | k, Nat.succ m => nodesOf cfg (pages k) ++ collectFrom cfg pages (k + 1) m

/-- The raw `endCursor` key of a page: `none` when `pageInfo` or the key is
absent, `some c` when the key is present with value `c` (possibly `null`). -/
def endCursorField (p : RepoPage) : Option (Option String) :=
  match p.pageInfo with
  | none => none
  | some pi => pi.endCursor

/-! ## Concrete data for witnesses and counterexamples -/

/-- Default configuration: no exclusions, forked-repo tracking enabled. -/
def cfg0 : Cfg := ⟨[], [], false⟩

/-- A repository node with 3 stars, 1 fork and 100 bytes of Python. -/
def repoA : RepoNode := ⟨some "u/a", 3, 1, [⟨some 100, some "Python", none⟩]⟩

/-- A repository node with 5 stars, 2 forks and 300 bytes of Go. -/
def repoB : RepoNode := ⟨some "u/b", 5, 2, [⟨some 300, some "Go", some "c"⟩]⟩

/-- A single overview page: `repoA` and `repoB` owned, and a second
occurrence of `repoA` in the contributed-to collection; no next pages. -/
def rawAB : Raw :=
  some ⟨none, some (some "lg"),
    some ⟨some ⟨some false, none⟩, [some repoA, some repoB]⟩,
    some ⟨some ⟨some false, none⟩, [some repoA]⟩⟩

def pagesAB : Nat → Raw := fun _ => rawAB

/-- The loop state after the single iteration over `pagesAB`: the duplicate
of `repoA` is skipped, so stars are 3 + 5 and forks 1 + 2. -/
def stAB : LoopState :=
  ⟨some "lg",
    ⟨8, 3, [("Python", ⟨100, 1, none⟩), ("Go", ⟨300, 1, some "c"⟩)],
      [some "u/b", some "u/a"]⟩,
    none, none⟩

/-- The proportions computed from `stAB`: 100 · 100⁄400 and 100 · 300⁄400. -/
def propsAB : List (String × ℚ) :=
  [("Python", 100 * (((100 : Nat) : ℚ) / ((400 : Nat) : ℚ))),
   ("Go", 100 * (((300 : Nat) : ℚ) / ((400 : Nat) : ℚ)))]

/-- A single overview page holding one repository whose only language edge
has size 0, so the language aggregate is non-empty with a zero total. -/
def rawZ : Raw :=
  some ⟨some "z", none,
    some ⟨some ⟨some false, none⟩, [some ⟨some "u/z", 0, 0, [⟨some 0, some "X", none⟩]⟩]⟩,
    some ⟨some ⟨some false, none⟩, []⟩⟩

def pagesZ : Nat → Raw := fun _ => rawZ

/-- The loop state after the single iteration over `pagesZ`. -/
def stZ : LoopState :=
  ⟨some "z", ⟨0, 0, [("X", ⟨0, 1, none⟩)], [some "u/z"]⟩, none, none⟩

/-- Three-iteration page stream for the cursor counterexample: the owned
side advances to cursor `A1`, then reports no next page while carrying
`endCursor: null`; the contributed-to side keeps paginating to `B2`. -/
def pagesC4 : Nat → Raw
  | 0 => some ⟨none, none,
      some ⟨some ⟨some true, some (some "A1")⟩, []⟩,
      some ⟨some ⟨some true, some (some "B1")⟩, []⟩⟩
  | 1 => some ⟨none, none,
      some ⟨some ⟨some false, some none⟩, []⟩,
      some ⟨some ⟨some true, some (some "B2")⟩, []⟩⟩
  | _ => some ⟨none, none,
      some ⟨some ⟨some false, none⟩, []⟩,
      some ⟨some ⟨some false, none⟩, []⟩⟩

/-- The loop state after `pagesC4`: the owned cursor was overwritten with
`null` at the end of the second iteration. -/
def stC4 : LoopState := ⟨some "No Name", initAcc, none, some "B2"⟩

/-- Page stream with 2 owned pages and 1 contributed-to page: the owned
side reports a next page only on iteration 0. -/
def pagesTwoOne : Nat → Raw
  | 0 => some ⟨none, none,
      some ⟨some ⟨some true, some (some "A1")⟩, []⟩,
      some ⟨some ⟨some false, some none⟩, []⟩⟩
  | _ => some ⟨none, none,
      some ⟨some ⟨some false, some (some "A2")⟩, []⟩,
      some ⟨some ⟨some false, some none⟩, []⟩⟩

/-- An exhausted page (no next) and an advancing page (next, cursor `B2`)
for the amended cursor-update witness. -/
def opEx : RepoPage := ⟨some ⟨some false, some none⟩, []⟩

def cpAdv : RepoPage := ⟨some ⟨some true, some (some "B2")⟩, []⟩

/-- Concrete cache and filesystems for the cache round-trip witness. -/
def cW : SimpleCache := ⟨".github_stats_cache", 3600⟩

def fsW : FS Nat := ⟨[".github_stats_cache"], []⟩

/-- A filesystem holding one cache entry written at time 0. -/
def fs2W : FS Nat :=
  ⟨[".github_stats_cache"],
    [(".github_stats_cache/views_u.json", CacheFile.valid ⟨0, 9⟩)]⟩

/-! ## Helper lemmas -/

lemma runLoop_succ_continue (cfg : Cfg) (pages : Nat → Raw) (fuel k : Nat)
    (s : LoopState)
    (h : (pageHasNext (ownedPageOf (pages k)) || pageHasNext (contribPageOf (pages k))) = true) :
    runLoop cfg pages (fuel + 1) k s =
      runLoop cfg pages fuel (k + 1)
        ⟨nameFromRaw (pages k), processRepos cfg s.acc (nodesOf cfg (pages k)),
          stepCursor (ownedPageOf (pages k)) s.ownedCursor,
          stepCursor (contribPageOf (pages k)) s.contribCursor⟩ := by
  simp only [runLoop, nextCursors, h, if_true]

lemma runLoop_succ_break (cfg : Cfg) (pages : Nat → Raw) (fuel k : Nat)
    (s : LoopState)
    (h : (pageHasNext (ownedPageOf (pages k)) || pageHasNext (contribPageOf (pages k))) = false) :
    runLoop cfg pages (fuel + 1) k s =
      some (⟨nameFromRaw (pages k), processRepos cfg s.acc (nodesOf cfg (pages k)),
        s.ownedCursor, s.contribCursor⟩, k + 1) := by
  simp only [runLoop, nextCursors, h, Bool.false_eq_true, if_false]

lemma processRepos_append (cfg : Cfg) (acc : StatsAcc)
    (rs ts : List (Option RepoNode)) :
    processRepos cfg acc (rs ++ ts) = processRepos cfg (processRepos cfg acc rs) ts := by
  simp [processRepos, List.foldl_append]


lemma runLoop_acc (cfg : Cfg) (pages : Nat → Raw) :
    ∀ (fuel k : Nat) (s s' : LoopState) (n : Nat),
      runLoop cfg pages fuel k s = some (s', n) →
      ∃ m, n = k + m ∧
        s'.acc = processRepos cfg s.acc (collectFrom cfg pages k m) := by
  intro fuel
  induction fuel with
  | zero => intro k s s' n h; simp [runLoop] at h
  | succ fuel ih =>
    intro k s s' n h
    rcases hb : (pageHasNext (ownedPageOf (pages k)) || pageHasNext (contribPageOf (pages k)))
      with _ | _
    · rw [runLoop_succ_break cfg pages fuel k s hb] at h
      obtain ⟨h1, h2⟩ := Prod.mk.injEq .. ▸ Option.some.injEq .. ▸ h
      refine ⟨1, by omega, ?_⟩
      rw [← h1]
      simp [collectFrom, processRepos]
    · rw [runLoop_succ_continue cfg pages fuel k s hb] at h
      obtain ⟨m, hm, hacc⟩ := ih (k + 1) _ s' n h
      refine ⟨m + 1, by omega, ?_⟩
      rw [hacc, collectFrom, processRepos_append]

lemma processRepos_dedup (cfg : Cfg) :
    ∀ (rs : List (Option RepoNode)) (acc : StatsAcc),
      processRepos cfg acc rs = processRepos cfg acc (dedupNodes cfg acc.repos rs) := by
  intro rs
  induction rs with
  | nil => intro acc; rfl
  | cons r rs ih =>
    intro acc
    match r with
    | none =>
      simp only [processRepos, List.foldl_cons, dedupNodes]
      exact ih acc
    | some r =>
      by_cases h : r.nameWithOwner ∈ acc.repos ∨ inExcludeRepos cfg r.nameWithOwner
      · simp only [processRepos, List.foldl_cons, dedupNodes, processRepo, if_pos h]
        exact ih acc
      · simp only [processRepos, List.foldl_cons, dedupNodes, processRepo, if_neg h]
        exact ih _

lemma processRepo_nodup (cfg : Cfg) (acc : StatsAcc) (r : Option RepoNode)
    (h : acc.repos.Nodup) : (processRepo cfg acc r).repos.Nodup := by
  match r with
  | none => exact h
  | some r =>
    by_cases hc : r.nameWithOwner ∈ acc.repos ∨ inExcludeRepos cfg r.nameWithOwner
    · simpa [processRepo, if_pos hc] using h
    · simp only [processRepo, if_neg hc]
      exact List.nodup_cons.mpr ⟨fun hmem => hc (Or.inl hmem), h⟩

lemma processRepos_nodup (cfg : Cfg) :
    ∀ (rs : List (Option RepoNode)) (acc : StatsAcc),
      acc.repos.Nodup → (processRepos cfg acc rs).repos.Nodup := by
  intro rs
  induction rs with
  | nil => intro acc h; exact h
  | cons r rs ih =>
    intro acc h
    simp only [processRepos, List.foldl_cons]
    exact ih (processRepo cfg acc r) (processRepo_nodup cfg acc r h)

lemma computeProps_eq_map (T : ℚ) (hT : T ≠ 0) :
    ∀ langs : List (String × LangStat),
      computeProps T langs =
        some (langs.map (fun kv => (kv.1, 100 * ((kv.2.size : ℚ) / T)))) := by
  intro langs
  induction langs with
  | nil => rfl
  | cons kv rest ih => simp [computeProps, pydiv, hT, ih]

lemma computeProps_cons_ne_zero (T : ℚ) (kv : String × LangStat)
    (rest : List (String × LangStat)) (ps : List (String × ℚ))
    (h : computeProps T (kv :: rest) = some ps) : T ≠ 0 := by
  intro hT
  simp [computeProps, pydiv, hT] at h

lemma props_map_sum (T : ℚ) :
    ∀ langs : List (String × LangStat),
      (((langs.map (fun kv => (kv.1, 100 * ((kv.2.size : ℚ) / T)))).map Prod.snd).sum)
        = 100 * ((langs.map (fun kv => ((kv.2.size : ℚ)))).sum) / T := by
  intro langs
  induction langs with
  | nil => simp
  | cons kv rest ih =>
    simp only [List.map_cons, List.sum_cons, ih]
    ring

lemma langsTotal_cast (langs : List (String × LangStat)) :
    ((langsTotal langs : Nat) : ℚ) = (langs.map (fun kv => ((kv.2.size : ℚ)))).sum := by
  simp only [langsTotal, Nat.cast_list_sum, List.map_map]
  rfl

lemma runLoop_exact_count (cfg : Cfg) (pages : Nat → Raw) (m : Nat)
    (hcond : ∀ j, (pageHasNext (ownedPageOf (pages j)) || pageHasNext (contribPageOf (pages j)))
      = decide (j + 1 < m)) :
    ∀ (fuel k : Nat) (s : LoopState), k < m → m ≤ k + fuel →
      ∃ s', runLoop cfg pages fuel k s = some (s', m) := by
  intro fuel
  induction fuel with
  | zero => intro k s hk hm; omega
  | succ fuel ih =>
    intro k s hk hm
    by_cases hlt : k + 1 < m
    · have hb : (pageHasNext (ownedPageOf (pages k)) || pageHasNext (contribPageOf (pages k)))
          = true := by rw [hcond k]; exact decide_eq_true hlt
      rw [runLoop_succ_continue cfg pages fuel k s hb]
      exact ih (k + 1) _ hlt (by omega)
    · have hkm : k + 1 = m := by omega
      have hb : (pageHasNext (ownedPageOf (pages k)) || pageHasNext (contribPageOf (pages k)))
          = false := by rw [hcond k]; exact decide_eq_false hlt
      rw [runLoop_succ_break cfg pages fuel k s hb]
      exact ⟨_, by rw [hkm]⟩

lemma linesFold_skip_error (u e : String) :
    ∀ (l1 l2 : List (List ContribEntry)) (acc : Nat × Nat),
      linesFold u acc (l1.map Except.ok ++ Except.error e :: l2.map Except.ok)
        = linesFold u acc ((l1 ++ l2).map Except.ok) := by
  intro l1
  induction l1 with
  | nil => intro l2 acc; simp [linesFold]
  | cons p l1 ih =>
    intro l2 acc
    simp only [List.map_cons, List.cons_append, linesFold]
    exact ih l2 _

lemma linesFold_sum (u : String) :
    ∀ (ps : List (List ContribEntry)) (acc : Nat × Nat),
      linesFold u acc (ps.map Except.ok)
        = (acc.1 + (ps.map (fun p => (fetchRepoStats u p).1)).sum,
           acc.2 + (ps.map (fun p => (fetchRepoStats u p).2)).sum) := by
  intro ps
  induction ps with
  | nil => intro acc; simp [linesFold]
  | cons p ps ih =>
    intro acc
    simp only [List.map_cons, linesFold, List.sum_cons, ih]
    refine Prod.ext ?_ ?_ <;> simp <;> omega

lemma viewsFold_skip_error (e : String) :
    ∀ (l1 l2 : List (Option (List (Option Nat)))) (total : Nat),
      viewsFold total (l1.map Except.ok ++ Except.error e :: l2.map Except.ok)
        = viewsFold total ((l1 ++ l2).map Except.ok) := by
  intro l1
  induction l1 with
  | nil => intro l2 total; simp [viewsFold]
  | cons p l1 ih =>
    intro l2 total
    simp only [List.map_cons, List.cons_append, viewsFold]
    exact ih l2 _

lemma viewsFold_sum :
    ∀ (ps : List (Option (List (Option Nat)))) (total : Nat),
      viewsFold total (ps.map Except.ok)
        = total + (ps.map fetchRepoViews).sum := by
  intro ps
  induction ps with
  | nil => intro total; simp [viewsFold]
  | cons p ps ih =>
    intro total
    simp only [List.map_cons, viewsFold, List.sum_cons, ih]
    omega

lemma queryRestAux_all_accepted (responses : Nat → RestResp)
    (h : ∀ k, responses k = RestResp.accepted) :
    ∀ (budget attempts : Nat) (sleeps : List Nat),
      queryRestAux responses budget attempts sleeps
        = ⟨RestResult.emptyDict, attempts + budget, sleeps ++ List.replicate budget 2⟩ := by
  intro budget
  induction budget with
  | zero => intro attempts sleeps; simp [queryRestAux]
  | succ budget ih =>
    intro attempts sleeps
    rw [queryRestAux, h attempts, ih (attempts + 1) (sleeps ++ [2])]
    simp only [RestRun.mk.injEq, List.append_assoc, List.singleton_append,
      List.replicate_succ, true_and, and_true]
    omega

lemma FS.lookupFile_writeFile {V : Type} (fs : FS V) (path : String)
    (c : CacheFile V) : (fs.writeFile path c).lookupFile path = some c := by
  simp [FS.writeFile, FS.lookupFile, List.find?_cons]

lemma FS.lookupFile_eraseFile {V : Type} (fs : FS V) (path : String) :
    (fs.eraseFile path).lookupFile path = none := by
  unfold FS.eraseFile FS.lookupFile
  rw [Option.map_eq_none', List.find?_eq_none]
  intro kv hkv
  have hne := List.of_mem_filter hkv
  simpa using hne

lemma FS.dirs_eraseFile {V : Type} (fs : FS V) (path : String) :
    (fs.eraseFile path).dirs = fs.dirs := rfl

lemma FS.dirs_writeFile {V : Type} (fs : FS V) (path : String) (c : CacheFile V) :
    (fs.writeFile path c).dirs = fs.dirs := rfl

/-! ## Claim theorems -/

/-- C1: for every sequence of repository-overview pages, after the
`get_stats` pagination loop completes the repo set contains each
`full_name` exactly once (no duplicates), and the accumulated state equals
the state obtained by processing only the first occurrence of each
repository: second and later occurrences of a `full_name` — across the
owned and contributed-to collections or across iterations — contribute
nothing to the stargazer, fork and language totals. -/
theorem c1_repo_dedup_exactly_once (cfg : Cfg) (pages : Nat → Raw)
    (fuel : Nat) (s : LoopState) (n : Nat)
    (h : runLoop cfg pages fuel 0 initLoopState = some (s, n)) :
    s.acc.repos.Nodup ∧
      s.acc = processRepos cfg initAcc
        (dedupNodes cfg [] (collectFrom cfg pages 0 n)) := by
  obtain ⟨m, hm, hacc⟩ := runLoop_acc cfg pages fuel 0 initLoopState s n h
  have hm0 : n = m := by omega
  subst hm0
  constructor
  · rw [hacc]
    exact processRepos_nodup cfg _ initAcc (List.nodup_nil)
  · rw [hacc]
    exact processRepos_dedup cfg (collectFrom cfg pages 0 n) initAcc

/-- C1 witness: one page with `repoA`, `repoB` owned and a duplicate of
`repoA` contributed-to; the loop result satisfies the dedup property. -/
theorem c1_repo_dedup_exactly_once_witness :
    runLoop cfg0 pagesAB 2 0 initLoopState = some (stAB, 1) ∧
      (stAB.acc.repos.Nodup ∧
        stAB.acc = processRepos cfg0 initAcc
          (dedupNodes cfg0 [] (collectFrom cfg0 pagesAB 0 1))) :=
  ⟨by decide, c1_repo_dedup_exactly_once cfg0 pagesAB 2 stAB 1 (by decide)⟩

/-- C5: for every pair of page streams in which the owned side has `a` pages
(a next page is reported exactly on iterations before the last owned page)
and the contributed-to side has `b` pages, with `a, b ≥ 1`, the `get_stats`
pagination loop terminates and performs exactly `max a b` iterations. -/
theorem c5_pagination_iteration_count (cfg : Cfg) (pages : Nat → Raw)
    (a b fuel : Nat) (s0 : LoopState)
    (ha : 1 ≤ a) (hb : 1 ≤ b)
    (hOwn : ∀ j, pageHasNext (ownedPageOf (pages j)) = decide (j + 1 < a))
    (hContrib : ∀ j, pageHasNext (contribPageOf (pages j)) = decide (j + 1 < b))
    (hfuel : max a b ≤ fuel) :
    ∃ s, runLoop cfg pages fuel 0 s0 = some (s, max a b) := by
  refine runLoop_exact_count cfg pages (max a b) ?_ fuel 0 s0 (by omega) (by omega)
  intro j
  rw [hOwn j, hContrib j, ← Bool.decide_or, decide_eq_decide]
  omega

/-- C5 witness: 2 owned pages and 1 contributed-to page; the loop performs
`max 2 1 = 2` iterations. -/
theorem c5_pagination_iteration_count_witness :
    ∃ s, runLoop cfg0 pagesTwoOne 3 0 initLoopState = some (s, 2) :=
  c5_pagination_iteration_count cfg0 pagesTwoOne 2 1 3 initLoopState
    (by decide) (by decide)
    (fun j => by cases j with | zero => rfl | succ j => rfl)
    (fun j => by cases j with | zero => rfl | succ j => rfl)
    (by decide)

/-- C10: when every overview query returns an empty result object, the
`get_stats` loop terminates after exactly one iteration without raising;
the stored name is the string `"No Name"` (never Python `None`), stargazer
and fork totals are 0, and the repo set and language aggregate are empty
(so the proportion pass divides by nothing and succeeds with no entries). -/
theorem c10_total_transport_failure (cfg : Cfg) (fuel : Nat) :
    getStats cfg (fun _ => (none : Raw)) (fuel + 1) =
      some (⟨⟨some "No Name", initAcc, none, none⟩, []⟩, 1) := by
  have hb : (pageHasNext (ownedPageOf ((fun _ => (none : Raw)) 0)) ||
      pageHasNext (contribPageOf ((fun _ => (none : Raw)) 0))) = false := rfl
  have h := runLoop_succ_break cfg (fun _ => (none : Raw)) fuel 0 initLoopState hb
  have hnodes : nodesOf cfg (none : Raw) = [] := by
    unfold nodesOf
    simp [ownedPageOf, contribPageOf, emptyRepoPage]
  rw [hnodes] at h
  unfold getStats
  rw [h]
  rfl

/-- C2: every run of `get_stats` that completes and produces a non-empty
language aggregate assigns proportion values that sum to exactly 100 (the
model computes over `ℚ`, so the floating-point tolerance of the claim is
met with exact equality). -/
theorem c2_proportions_sum_100 (cfg : Cfg) (pages : Nat → Raw) (fuel : Nat)
    (f : FinalStats) (n : Nat)
    (h : getStats cfg pages fuel = some (f, n)) (hne : f.props ≠ []) :
    (f.props.map Prod.snd).sum = 100 := by
  unfold getStats at h
  rcases hr : runLoop cfg pages fuel 0 initLoopState with _ | ⟨s, m⟩
  · rw [hr] at h; exact absurd h (by simp)
  · simp only [hr] at h
    rcases hp : computeProps ((langsTotal s.acc.languages : ℚ)) s.acc.languages
      with _ | ps
    · rw [hp] at h; exact absurd h (by simp)
    · simp only [hp, Option.some.injEq, Prod.mk.injEq] at h
      obtain ⟨h1, h2⟩ := h
      subst h1
      show (ps.map Prod.snd).sum = 100
      cases hl : s.acc.languages with
      | nil =>
        rw [hl] at hp
        have hps : ps = [] := by
          have := Option.some.injEq .. ▸ hp
          exact this.symm
        rw [hps] at hne
        exact absurd rfl hne
      | cons kv rest =>
        rw [hl] at hp
        have hT : ((langsTotal (kv :: rest) : Nat) : ℚ) ≠ 0 :=
          computeProps_cons_ne_zero _ kv rest ps hp
        rw [computeProps_eq_map _ hT] at hp
        have hps := (Option.some.injEq .. ▸ hp)
        rw [← hps, props_map_sum, ← langsTotal_cast, mul_div_assoc,
          div_self hT, mul_one]

/-- C2 witness: two repositories with 100 bytes of Python and 300 bytes of
Go; `get_stats` completes with proportions 25 and 75, which sum to 100. -/
theorem c2_proportions_sum_100_witness :
    getStats cfg0 pagesAB 2 = some (⟨stAB, propsAB⟩, 1) ∧
      propsAB ≠ [] ∧ (propsAB.map Prod.snd).sum = 100 := by
  have hT : ((langsTotal stAB.acc.languages : Nat) : ℚ) ≠ 0 :=
    Nat.cast_ne_zero.mpr (by decide)
  have hg : getStats cfg0 pagesAB 2 = some (⟨stAB, propsAB⟩, 1) := by
    unfold getStats
    simp only [show runLoop cfg0 pagesAB 2 0 initLoopState = some (stAB, 1) from by decide,
      computeProps_eq_map _ hT]
    rfl
  exact ⟨hg, by decide,
    c2_proportions_sum_100 cfg0 pagesAB 2 ⟨stAB, propsAB⟩ 1 hg (by decide)⟩

/-- C3 counterexample: a run whose only repository carries one language
edge of size 0.  The loop completes with a non-empty language aggregate of
total byte size 0, and the proportion computation at the end of `get_stats`
divides by zero (`getStats` evaluates to `none`, the model of a raised
`ZeroDivisionError`) — the computation is not guarded against a zero total,
contradicting the claim. -/
theorem c3_zero_total_counterexample :
    runLoop cfg0 pagesZ 2 0 initLoopState = some (stZ, 1) ∧
      stZ.acc.languages ≠ [] ∧
      langsTotal stZ.acc.languages = 0 ∧
      getStats cfg0 pagesZ 2 = none := by decide

/-- C3 amended: the proportion computation at the end of `get_stats` avoids
division by zero exactly when the language aggregate is empty (no division
is attempted) or its total byte size is non-zero; for a non-empty aggregate
whose total is zero it raises `ZeroDivisionError`. -/
theorem c3_division_guard_amended :
    ∀ langs : List (String × LangStat),
      (computeProps ((langsTotal langs : ℚ)) langs).isSome = true ↔
        (langs = [] ∨ langsTotal langs ≠ 0) := by
  intro langs
  cases langs with
  | nil => simp [computeProps]
  | cons kv rest =>
    constructor
    · intro h
      right
      intro h0
      obtain ⟨ps, hps⟩ := Option.isSome_iff_exists.mp h
      exact computeProps_cons_ne_zero _ kv rest ps hps (by rw [h0]; exact Nat.cast_zero)
    · intro h
      rcases h with h | h
      · exact absurd h (by simp)
      · rw [computeProps_eq_map _ (Nat.cast_ne_zero.mpr h)]
        rfl

/-- C4 counterexample: the owned side advances to cursor `A1`, then reports
`hasNextPage: false` with `endCursor: null` while the contributed-to side
continues.  The claim says the owned cursor keeps its previous value `A1`;
the code overwrites it with `null` (the `.get("endCursor", prev)` default
applies only when the key is absent, and here the key is present). -/
theorem c4_cursor_retention_counterexample :
    runLoop cfg0 pagesC4 5 0 initLoopState = some (stC4, 3) ∧
      stC4.ownedCursor = none ∧ stC4.ownedCursor ≠ some "A1" := by decide

/-- C4 amended: in every iteration in which one page reports no next page
while the other reports one, the loop continues and each cursor is set to
its page's `endCursor` value whenever the key is present — including a
present-but-null `endCursor`, which overwrites the cursor with `None` — and
keeps its previous value only when the `endCursor` key (or the whole
`pageInfo`) is absent. -/
theorem c4_cursor_update_amended (op cp : RepoPage) (co cc : Option String)
    (hop : pageHasNext op = false) (hcp : pageHasNext cp = true) :
    nextCursors op cp co cc =
      some ((endCursorField op).getD co, (endCursorField cp).getD cc) := by
  have hstep : ∀ (p : RepoPage) (prev : Option String),
      stepCursor p prev = (endCursorField p).getD prev := by
    intro p prev
    rcases p with ⟨pinfo, nodes⟩
    rcases pinfo with _ | ⟨hn, ec⟩
    · rfl
    · rcases ec with _ | c
      · rfl
      · rfl
  unfold nextCursors
  rw [hop, hcp, hstep, hstep]
  rfl

/-- C4 amended witness: an exhausted page with `endCursor: null` and an
advancing page with cursor `B2`; the previous owned cursor `A1` is
overwritten with `None` while the contributed-to cursor becomes `B2`. -/
theorem c4_cursor_update_amended_witness :
    nextCursors opEx cpAdv (some "A1") (some "B1") = some (none, some "B2") :=
  c4_cursor_update_amended opEx cpAdv (some "A1") (some "B1") rfl rfl

/-- C6: when exactly one per-repository fetch task raises and all others
succeed, the `lines_changed` totals equal the sums over the successful
repositories' results, and symmetrically for `views`; both aggregates are
total functions, so no exception escapes the call. -/
theorem c6_per_repo_failure_isolation (u e ev : String)
    (p1 p2 : List (List ContribEntry))
    (v1 v2 : List (Option (List (Option Nat)))) :
    lines_changed u (p1.map Except.ok ++ Except.error e :: p2.map Except.ok) =
      (((p1 ++ p2).map (fun p => (fetchRepoStats u p).1)).sum,
        ((p1 ++ p2).map (fun p => (fetchRepoStats u p).2)).sum) ∧
      viewsAgg (v1.map Except.ok ++ Except.error ev :: v2.map Except.ok) =
        ((v1 ++ v2).map fetchRepoViews).sum := by
  constructor
  · unfold lines_changed
    rw [linesFold_skip_error u e p1 p2 (0, 0), linesFold_sum u (p1 ++ p2) (0, 0)]
    simp
  · unfold viewsAgg
    rw [viewsFold_skip_error ev v1 v2 0, viewsFold_sum (v1 ++ v2) 0]
    simp

/-- C7: when the server answers HTTP 202 on every attempt, `query_rest`
sleeps the fixed backoff of 2 time-units after each attempt, makes exactly
60 attempts, and returns the empty result object without raising. -/
theorem c7_rest_202_retry_budget (responses : Nat → RestResp)
    (h : ∀ k, responses k = RestResp.accepted) :
    query_rest responses =
      ⟨RestResult.emptyDict, 60, List.replicate 60 2⟩ := by
  unfold query_rest
  rw [queryRestAux_all_accepted responses h 60 0 []]
  rfl

/-- C7 witness: a response stream that always answers 202. -/
theorem c7_rest_202_retry_budget_witness :
    query_rest (fun _ => RestResp.accepted) =
      ⟨RestResult.emptyDict, 60, List.replicate 60 2⟩ :=
  c7_rest_202_retry_budget (fun _ => RestResp.accepted) (fun _ => rfl)

/-- C8: setting a key and reading it back within the TTL returns the stored
value; a read of an entry whose age strictly exceeds the TTL misses, and
the backing file no longer exists afterwards. -/
theorem c8_cache_roundtrip_and_expiry {V : Type} (c : SimpleCache)
    (fs fs2 : FS V) (key key2 : String) (v w : V) (now now' now2 ts : ℚ)
    (hdir : c.cache_dir ∈ fs.dirs)
    (hfresh : now' - now ≤ (c.ttl : ℚ))
    (hlook : fs2.lookupFile (cachePath c key2) = some (CacheFile.valid ⟨ts, w⟩))
    (hexp : now2 - ts > (c.ttl : ℚ)) :
    (c.get now' (c.set now fs key v) key).1 = some v ∧
      (c.get now2 fs2 key2).1 = none ∧
      (c.get now2 fs2 key2).2.lookupFile (cachePath c key2) = none := by
  refine ⟨?_, ?_, ?_⟩
  · unfold SimpleCache.set SimpleCache.get
    rw [if_pos hdir]
    simp only [FS.lookupFile_writeFile]
    rw [if_neg (not_lt.mpr hfresh)]
  · unfold SimpleCache.get
    simp only [hlook]
    rw [if_pos hexp]
  · unfold SimpleCache.get
    simp only [hlook]
    rw [if_pos hexp]
    exact FS.lookupFile_eraseFile fs2 (cachePath c key2)

/-- C9 counterexample: over a filesystem with no directories, merely
constructing the cache (no `get` or `set` was issued) already creates the
cache directory — `__init__` calls `_ensure_cache_dir()` eagerly, so the
directory is not created lazily on first use. -/
theorem c9_lazy_dir_counterexample :
    ((⟨[], []⟩ : FS Nat).dirs = ([] : List String)) ∧
      ((SimpleCache.make ".github_stats_cache" 3600 (⟨[], []⟩ : FS Nat)).2.dirs
        = [".github_stats_cache"]) := by decide

/-- C9 amended: the cache directory is created eagerly during construction
when missing, and neither `get` nor `set` ever changes the set of
directories (in particular, `set` against a missing directory silently
fails instead of creating it). -/
theorem c9_eager_dir_creation_amended {V : Type} (dir : String) (ttl : Int)
    (fs fs1 : FS V) (c : SimpleCache) (key : String) (now : ℚ) (v : V) :
    (SimpleCache.make dir ttl fs).1.cache_dir ∈ (SimpleCache.make dir ttl fs).2.dirs ∧
      (c.get now fs1 key).2.dirs = fs1.dirs ∧
      (c.set now fs1 key v).dirs = fs1.dirs := by
  refine ⟨?_, ?_, ?_⟩
  · show dir ∈ (if dir ∈ fs.dirs then fs else { fs with dirs := dir :: fs.dirs }).dirs
    by_cases h : dir ∈ fs.dirs
    · rw [if_pos h]
      exact h
    · rw [if_neg h]
      exact List.mem_cons_self dir fs.dirs
  · unfold SimpleCache.get
    rcases hl : fs1.lookupFile (cachePath c key) with _ | cf
    · simp only [hl]
    · cases cf with
      | valid e =>
        simp only [hl]
        split <;> rfl
      | corrupt => simp only [hl]; rfl
  · unfold SimpleCache.set
    split <;> rfl

/-- C8 witness: a value stored at time 10 is read back at time 10; an entry
written at time 0 with TTL 3600 is read at time 3601, misses, and its file
is gone afterwards. -/
theorem c8_cache_roundtrip_and_expiry_witness :
    (cW.get 10 (cW.set 10 fsW "total_contributions_u" 7) "total_contributions_u").1
        = some 7 ∧
      (cW.get 3601 fs2W "views_u").1 = none ∧
      (cW.get 3601 fs2W "views_u").2.lookupFile (cachePath cW "views_u") = none :=
  c8_cache_roundtrip_and_expiry cW fsW fs2W "total_contributions_u" "views_u"
    7 9 10 10 3601 0 (by decide) (by norm_num [cW]) (by decide) (by norm_num [cW])
